import Mathlib

/-!
Shallow embedding of `src/to_wps_interm.py`: a converter from gridded
climate-model output to the WPS intermediate binary format.

Modelling conventions:
* Python byte strings are `List Nat` (each entry one byte value).
* Python `str` values are `List Char` (or Lean `String` where convenient).
* IEEE-754 floats carried through the pipeline are modelled as exact
  rationals `ℚ`; the claims under study concern which values appear in
  which record and in which order, not float bit patterns.
* Timestamps are modelled as natural numbers (hours since an epoch);
  the fixed 19-character `%Y-%m-%d_%H:00:00` stamp of the source is
  modelled by the injective fixed-width decimal rendering `decDigits 19`.
* `xarray.DataArray.interpolate_na` is the identity on grids with no
  missing values; grids are modelled as total `ℚ` grids, on which the
  two interpolation passes of the source are the identity and are
  therefore not represented.
* File handles (`FileInventory`) are not modelled: record emission is
  modelled by returning the list of records each call produces, in
  emission order.
-/

-- ---------------------------------------------------------------------
-- Byte-level helpers: record framing and text-field padding.
-- ---------------------------------------------------------------------

/-- 4-byte big-endian encoding of a natural number, as produced by
`struct.pack(">i", n)` for `0 ≤ n < 2^31`. -/
def be4 (n : Nat) : List Nat :=
  [n / 2 ^ 24 % 256, n / 2 ^ 16 % 256, n / 2 ^ 8 % 256, n % 256]

/-- Big-endian value of a byte list (decoder side of `be4`). -/
def be4val (bs : List Nat) : Nat :=
  bs.foldl (fun a b => a * 256 + b) 0

/-- `write_fortran_record` (src/to_wps_interm.py:37-43) applied to a raw
byte payload: leading 4-byte big-endian length, payload bytes verbatim,
trailing 4-byte big-endian length.  (For a Python `bytes` payload the
numpy round trip in the source is the identity, and `nbytes` is the byte
length.) -/
def write_fortran_record (payload : List Nat) : List Nat :=
  be4 payload.length ++ payload ++ be4 payload.length

/-- Decoder for one framed record: reads a leading 4-byte big-endian
length `L`, then `L` payload bytes, then the trailing 4-byte length. -/
def readFrame (bs : List Nat) : Option (Nat × List Nat × Nat) :=
  let L := be4val (bs.take 4)
  let rest := bs.drop 4
  if 4 ≤ bs.length ∧ rest.length = L + 4 then
    some (L, rest.take L, be4val (rest.drop L))
  else
    none

/-- Python `s.ljust(w)[:w]`: left-justify, pad with trailing spaces to
width `w`, truncating when longer (src/to_wps_interm.py:48). -/
def ljustTrunc (s : List Char) (w : Nat) : List Char :=
  (s ++ List.replicate (w - s.length) ' ').take w

/-- Python `str.encode("ascii")`: succeeds exactly when every character
is ASCII, yielding the byte (code point) of each character. -/
def encodeAscii (s : List Char) : Option (List Nat) :=
  if s.all (fun c => c.toNat < 128) then some (s.map Char.toNat) else none

/-- `pad` (src/to_wps_interm.py:46-48): pad/truncate to width `w`, then
encode as ASCII bytes. -/
def pad (s : List Char) (w : Nat) : Option (List Nat) :=
  encodeAscii (ljustTrunc s w)

-- ---------------------------------------------------------------------
-- The record model of the encoder `to_wps_interm`.
-- ---------------------------------------------------------------------

/-- One typed field as packed by `struct.pack` in the source: a 4-byte
big-endian signed integer, a 4-byte big-endian IEEE float (value
modelled exactly as a rational), or a fixed-width ASCII text field of
declared width `w` (characters after `ljust`/truncation, before the
byte encoding). -/
inductive Item where
  | i32 (n : Int)
  | f32 (x : ℚ)
  | txt (s : List Char) (w : Nat)
  deriving DecidableEq, Repr

/-- One Fortran-framed record's payload, as an ordered list of typed
fields (no delimiters exist between fields in the byte stream). -/
abbrev Record := List Item

/-- Default item handed to `List.getD` when projecting record fields;
every projection below is guarded by a proved record length, so the
default is never the value actually read. -/
def dfltItem : Item := Item.txt [] 0

/-- A 2-D grid of values indexed `[longitude][latitude]` (the axis
order `data.transpose("lon", "lat")` produces in the source). -/
abbrev Grid2 := List (List ℚ)

/-- One 2-D geographic slice handed to the encoder: coordinates, the
value grid, and the attribute bag entries the encoder reads
(`units`, `standard_name`, and the optional `plev` coordinate). -/
structure DataSlice where
  lon : List ℚ
  lat : List ℚ
  vals : Grid2
  units : String
  sname : String
  plev : Option ℚ
  deriving DecidableEq, Repr

/-- Fixed-width decimal rendering of a natural number, most significant
digit first.  Models the fixed 19-character `%Y-%m-%d_%H:00:00` stamp
written into HDATE: an injective rendering of an hour-resolution
timestamp into a fixed number of characters. -/
def decDigits (w n : Nat) : List Char :=
  (List.range w).map (fun i => Char.ofNat (48 + n / 10 ^ (w - 1 - i) % 10))

/-- The flattening order of `data.transpose("lon", "lat").values
.tobytes(order="F")`: Fortran (column-major) order on an array indexed
`[lon][lat]`, so the longitude index varies fastest. -/
def slabSeq (vals : Grid2) (nx ny : Nat) : List ℚ :=
  (List.range ny).flatMap (fun j => (List.range nx).map (fun i => (vals.getD i []).getD j 0))

/-- `to_wps_interm` (src/to_wps_interm.py:51-121): encodes one slice as
five records, returned in emission order.  `t` is the valid time (the
source reads it from the slice or the `time` argument; callers below
always pass it explicitly).  The interpolation passes of the source are
the identity on the total grids modelled here. -/
def to_wps_interm (d : DataSlice) (var_name : String) (t : Nat) : List Record :=
  let plev : ℚ := match d.plev with
    | some p => p
    | none => 200100  -- surface
  [ -- IFV
    [Item.i32 5],
    -- HDATE, XFCST, MAP_SOURCE, FIELD, UNITS, DESC, XLVL, NX, NY, IPROJ
    [Item.txt (ljustTrunc (decDigits 19 t) 24) 24,
     Item.f32 0,
     Item.txt (ljustTrunc "CMIP6".data 32) 32,
     Item.txt (ljustTrunc var_name.data 9) 9,
     Item.txt (ljustTrunc d.units.data 25) 25,
     Item.txt (ljustTrunc d.sname.data 46) 46,
     Item.f32 plev,
     Item.i32 d.lon.length,
     Item.i32 d.lat.length,
     Item.i32 0],
    -- STARTLOC, STARTLAT, STARTLON, DELTALAT, DELTALON, EARTH_RADIUS
    [Item.txt (ljustTrunc "SWCORNER".data 8) 8,
     Item.f32 (d.lat.getD 0 0),
     Item.f32 (d.lon.getD 0 0),
     Item.f32 (d.lat.getD 1 0 - d.lat.getD 0 0),
     Item.f32 (d.lon.getD 1 0 - d.lon.getD 0 0),
     Item.f32 ((6367470 : ℚ) / 1000)],
    -- IS_WIND_EARTH_REL
    [Item.i32 0],
    -- SLAB
    (slabSeq d.vals d.lon.length d.lat.length).map Item.f32 ]

/-- The serialization order asserted by the claim's parenthetical
gloss, stated from the spec's words for comparison: values for a fixed
longitude across all latitudes contiguous before advancing to the next
longitude (latitude varying fastest). -/
def slabSeqClaimed (vals : Grid2) (nx ny : Nat) : List ℚ :=
  (List.range nx).flatMap (fun i => (List.range ny).map (fun j => (vals.getD i []).getD j 0))

/-- Uniform-spacing predicate on a coordinate axis (spec §3: constant
delta between consecutive coordinate values), as a decidable check. -/
def uniformSpacing (xs : List ℚ) : Bool :=
  (List.range (xs.length - 2)).all
    (fun i => xs.getD (i + 2) 0 - xs.getD (i + 1) 0 == xs.getD 1 0 - xs.getD 0 0)

-- ---------------------------------------------------------------------
-- The conversion pipeline `convert_single_file`.
-- ---------------------------------------------------------------------

/-- The dimensional shape of one source variable's values:
time × pressure-level cube, time-only stack, or a static 2-D field. -/
inductive VarData where
  | tp (cube : List (List Grid2))
  | t (slices : List Grid2)
  | static (g : Grid2)
  deriving DecidableEq, Repr

/-- One source variable after time selection: coordinates, selected
time stamps, pressure levels (empty when the variable has none),
values, and the attributes the pipeline reads. -/
structure DataArray where
  lon : List ℚ
  lat : List ℚ
  times : List Nat
  plevs : List ℚ
  data : VarData
  units : String
  sname : String
  deriving DecidableEq, Repr

/-- One row of the variable-mapping table: source identifier, target
WPS field name, scale factor (`none` models the non-finite "not
applicable" sentinel tested by `np.isfinite`), target unit. -/
structure ConfRow where
  var_id : String
  wps_name : String
  scale : Option ℚ
  units : String
  deriving DecidableEq, Repr

/-- Multiply every grid value by `s` (`data * float(scale)` with
`keep_attrs=True`). -/
def scaleGrid (g : Grid2) (s : ℚ) : Grid2 :=
  g.map (fun col => col.map (fun v => v * s))

/-- Scaling lifted over the variable's dimensional shape. -/
def scaleData : VarData → ℚ → VarData
  | VarData.tp cube, s => VarData.tp (cube.map (fun row => row.map (fun g => scaleGrid g s)))
  | VarData.t slices, s => VarData.t (slices.map (fun g => scaleGrid g s))
  | VarData.static g, s => VarData.static (scaleGrid g s)

/-- Lines 160-168 of the source for one mapping row: when the row's
scale is finite, multiply the values by it (attributes kept) and
overwrite the `units` attribute with the row's target unit; otherwise
leave the variable untouched.  Note the source rebinds `data`, so the
result is carried into the next mapping row of the same variable. -/
def applyRow (d : DataArray) (row : ConfRow) : DataArray :=
  match row.scale with
  | some s => { d with data := scaleData d.data s, units := row.units }
  | none => d

/-- `pd.date_range(start, end, freq=interval)`: stamps
`s, s+ivl, s+2*ivl, …` up to and including `e` (empty when `e < s`). -/
def dateRange (s e ivl : Nat) : List Nat :=
  if s ≤ e then (List.range ((e - s) / ivl + 1)).map (fun k => s + k * ivl) else []

/-- The slice of variable `d` with grid `g` and pressure coordinate
`pl` handed to the encoder. -/
def sliceAt (d : DataArray) (g : Grid2) (pl : Option ℚ) : DataSlice :=
  { lon := d.lon, lat := d.lat, vals := g, units := d.units,
    sname := d.sname, plev := pl }

/-- Lines 179-212 of the source: the time/level fan-out for one mapping
row of one variable, as the list of emitted field-slabs (each slab is
the five records of one `to_wps_interm` call), in emission order. -/
def emitRow (d : DataArray) (wps : String) (s e ivl : Nat) : List (List Record) :=
  match d.data with
  | VarData.tp cube =>
      (List.range d.times.length).flatMap (fun it =>
        (List.range d.plevs.length).map (fun ip =>
          to_wps_interm
            (sliceAt d ((cube.getD it []).getD ip []) (some (d.plevs.getD ip 0)))
            wps (d.times.getD it 0)))
  | VarData.t slices =>
      (List.range d.times.length).map (fun it =>
        to_wps_interm (sliceAt d (slices.getD it []) none) wps (d.times.getD it 0))
  | VarData.static _ =>
      (dateRange s e ivl).map (fun t =>
        to_wps_interm (sliceAt d (match d.data with
          | VarData.static g => g
          | _ => []) none) wps t)

/-- Lines 152-212 of the source: process the mapping rows matching one
variable in order, threading the rebound `data` through the rows.
Returns the emitted slabs, the final carried state, and `some` error
when a units mismatch raised (in which case nothing of that row or any
later row was emitted). -/
def processRows (s e ivl : Nat) : DataArray → List ConfRow → List (List Record) × DataArray × Option String
  | d, [] => ([], d, none)
  | d, row :: rest =>
    let d1 := applyRow d row
    if d1.units = row.units then
      let r := processRows s e ivl d1 rest
      (emitRow d1 row.wps_name s e ivl ++ r.1, r.2.1, r.2.2)
    else
      ([], d1, some "Units mismatch")

/-- Lines 146-214 of the source: iterate the dataset's variables,
filtering the mapping table by `var_id`; an unmapped variable is
skipped; a raised error aborts the remaining variables. -/
def convert_single_file (s e ivl : Nat) :
    List (String × DataArray) → List ConfRow → List (List Record) × Option String
  | [], _ => ([], none)
  | (name, d) :: rest, conf =>
    let rows := conf.filter (fun r => r.var_id = name)
    let r := processRows s e ivl d rows
    match r.2.2 with
    | some err => (r.1, some err)
    | none =>
      let rr := convert_single_file s e ivl rest conf
      (r.1 ++ rr.1, rr.2)

-- ---------------------------------------------------------------------
-- Concrete inputs used by witnesses and counterexamples.
-- ---------------------------------------------------------------------

/-- A 2×2 slice with four distinct values, indexed `[lon][lat]`. -/
def slabDemoSlice : DataSlice :=
  { lon := [0, 1], lat := [10, 12], vals := [[1, 2], [3, 4]],
    units := "K", sname := "ta", plev := none }

/-- A slice whose latitude axis is non-uniformly spaced. -/
def irrSlice : DataSlice :=
  { lon := [0, 1], lat := [0, 1, 3], vals := [[5, 5, 5], [5, 5, 5]],
    units := "K", sname := "ta", plev := none }

/-- A surface (no pressure coordinate) slice. -/
def surfSlice : DataSlice :=
  { lon := [0, 1], lat := [10, 12], vals := [[7, 7], [7, 7]],
    units := "Pa", sname := "ps", plev := none }

/-- A static variable with unit `K` and all values 1, fanned out to two
mapping rows below. -/
def c4Var : DataArray :=
  { lon := [0, 1], lat := [10, 12], times := [], plevs := [],
    data := VarData.static [[1, 1], [1, 1]], units := "K", sname := "ta" }

/-- First mapping row for `c4Var`: finite scale 2, target unit `U1`. -/
def c4Row1 : ConfRow :=
  { var_id := "ta", wps_name := "F1", scale := some 2, units := "U1" }

/-- Second mapping row for `c4Var`: finite scale 3, target unit `U2`. -/
def c4Row2 : ConfRow :=
  { var_id := "ta", wps_name := "F2", scale := some 3, units := "U2" }

/-- A mapping row with the "not applicable" scale sentinel whose target
unit does not match the variable's unit. -/
def c5BadRow : ConfRow :=
  { var_id := "ta", wps_name := "F3", scale := none, units := "hPa" }

/-- A 2-stamp × 2-level value cube. -/
def tpCube : List (List Grid2) :=
  [[[[1, 1], [1, 1]], [[2, 2], [2, 2]]],
   [[[3, 3], [3, 3]], [[4, 4], [4, 4]]]]

/-- A time × pressure-level variable: two stamps, two levels. -/
def tpVar : DataArray :=
  { lon := [0, 1], lat := [10, 12], times := [6, 12], plevs := [850, 500],
    data := VarData.tp tpCube, units := "K", sname := "ta" }

/-- A time-invariant 2×2 grid. -/
def staticGrid : Grid2 := [[9, 9], [9, 9]]

/-- A static (no time axis) variable. -/
def staticVar : DataArray :=
  { lon := [0, 1], lat := [10, 12], times := [], plevs := [],
    data := VarData.static staticGrid, units := "m", sname := "orog" }

-- ---------------------------------------------------------------------
-- General lemmas about the fan-out shape.
-- ---------------------------------------------------------------------

theorem length_bind_range_map {α : Type} (T M : Nat) (f : Nat → Nat → α) :
    ((List.range T).flatMap (fun i => (List.range M).map (f i))).length = T * M := by
  induction T with
  | zero => simp
  | succ n ih =>
      rw [List.range_succ, List.flatMap_append]
      simp only [List.length_append, ih, List.flatMap_cons, List.flatMap_nil,
        List.append_nil, List.length_map, List.length_range]
      ring

theorem getD_bind_range_map {α : Type} (T M : Nat) (f : Nat → Nat → α) (dflt : α)
    (it ip : Nat) (h1 : it < T) (h2 : ip < M) :
    ((List.range T).flatMap (fun i => (List.range M).map (f i))).getD (it * M + ip) dflt
      = f it ip := by
  induction T with
  | zero => omega
  | succ n ih =>
      rw [List.range_succ, List.flatMap_append]
      by_cases hc : it < n
      · have hlt : it * M + ip < ((List.range n).flatMap (fun i => (List.range M).map (f i))).length := by
          rw [length_bind_range_map]
          have : it * M + ip < (it + 1) * M := by nlinarith
          have h3 : (it + 1) * M ≤ n * M := Nat.mul_le_mul_right M hc
          omega
        rw [List.getD_append _ _ _ _ hlt]
        exact ih hc
      · have heq : it = n := by omega
        subst heq
        have hge : ((List.range it).flatMap (fun i => (List.range M).map (f i))).length ≤ it * M + ip := by
          rw [length_bind_range_map]; omega
        rw [List.getD_append_right _ _ _ _ hge]
        rw [length_bind_range_map]
        have : it * M + ip - it * M = ip := by omega
        rw [this]
        simp only [List.flatMap_cons, List.flatMap_nil, List.append_nil]
        rw [List.getD_eq_getElem?_getD, List.getElem?_map, List.getElem?_range h2]
        rfl

theorem irrSlice_lat_not_uniform : uniformSpacing irrSlice.lat = false := by
  simp [uniformSpacing, irrSlice]
  norm_num

theorem getD_map_of_lt {α β : Type} (f : α → β) (l : List α) (n : Nat)
    (h : n < l.length) (d : β) (d0 : α) :
    (l.map f).getD n d = f (l.getD n d0) := by
  rw [List.getD_eq_getElem?_getD, List.getElem?_map,
    List.getElem?_eq_getElem h, List.getD_eq_getElem?_getD,
    List.getElem?_eq_getElem h]
  rfl

theorem getD_range_map {α : Type} (f : Nat → α) (w i : Nat) (h : i < w) (d : α) :
    ((List.range w).map f).getD i d = f i := by
  rw [List.getD_eq_getElem?_getD, List.getElem?_map, List.getElem?_range h]
  rfl

-- Injectivity of the fixed-width decimal timestamp rendering.

theorem digitChar_inj_fin (a b : Fin 10)
    (h : Char.ofNat (48 + a.val) = Char.ofNat (48 + b.val)) : a = b := by
  revert h
  revert a b
  decide

theorem nat_eq_of_digits_eq (w : Nat) :
    ∀ n m : Nat, n < 10 ^ w → m < 10 ^ w →
      (∀ i, i < w → n / 10 ^ i % 10 = m / 10 ^ i % 10) → n = m := by
  induction w with
  | zero => intro n m hn hm _; omega
  | succ v ih =>
      intro n m hn hm hdig
      have h0 : n % 10 = m % 10 := by
        have := hdig 0 (by omega)
        simpa using this
      have hrec : n / 10 = m / 10 := by
        apply ih
        · have : 10 ^ (v + 1) = 10 ^ v * 10 := by ring
          omega
        · have : 10 ^ (v + 1) = 10 ^ v * 10 := by ring
          omega
        · intro i hi
          have := hdig (i + 1) (by omega)
          have e1 : n / 10 ^ (i + 1) = n / 10 / 10 ^ i := by
            rw [Nat.div_div_eq_div_mul]
            ring_nf
          have e2 : m / 10 ^ (i + 1) = m / 10 / 10 ^ i := by
            rw [Nat.div_div_eq_div_mul]
            ring_nf
          rw [e1, e2] at this
          exact this
      omega

theorem decDigits_length (w n : Nat) : (decDigits w n).length = w := by
  simp [decDigits]

theorem decDigits_inj (w n m : Nat) (hn : n < 10 ^ w) (hm : m < 10 ^ w)
    (h : decDigits w n = decDigits w m) : n = m := by
  apply nat_eq_of_digits_eq w n m hn hm
  intro i hi
  have hpos : w - 1 - (w - 1 - i) = i := by omega
  have hlt : w - 1 - i < w := by omega
  have hgd := congrArg (fun l => l.getD (w - 1 - i) 'x') h
  simp only [decDigits] at hgd
  rw [getD_range_map _ _ _ hlt, getD_range_map _ _ _ hlt] at hgd
  rw [hpos] at hgd
  have d1 : n / 10 ^ i % 10 < 10 := Nat.mod_lt _ (by omega)
  have d2 : m / 10 ^ i % 10 < 10 := Nat.mod_lt _ (by omega)
  have := digitChar_inj_fin ⟨n / 10 ^ i % 10, d1⟩ ⟨m / 10 ^ i % 10, d2⟩ hgd
  exact congrArg Fin.val this

theorem ljustTrunc_inj_19_24 (s1 s2 : List Char) (h1 : s1.length = 19)
    (h2 : s2.length = 19) (h : ljustTrunc s1 24 = ljustTrunc s2 24) : s1 = s2 := by
  have e1 : ljustTrunc s1 24 = s1 ++ List.replicate 5 ' ' := by
    unfold ljustTrunc
    rw [h1]
    exact List.take_of_length_le (by simp [h1])
  have e2 : ljustTrunc s2 24 = s2 ++ List.replicate 5 ' ' := by
    unfold ljustTrunc
    rw [h2]
    exact List.take_of_length_le (by simp [h2])
  rw [e1, e2] at h
  have htk := congrArg (fun l => l.take 19) h
  simp only at htk
  have t1e : (s1 ++ List.replicate 5 ' ').take 19 = s1 := by
    rw [← h1]
    exact List.take_left s1 _
  have t2e : (s2 ++ List.replicate 5 ' ').take 19 = s2 := by
    rw [← h2]
    exact List.take_left s2 _
  rw [t1e, t2e] at htk
  exact htk

/-- The HDATE item of the encoder header is injective in the timestamp
(for timestamps below `10^19`). -/
theorem hdate_item_inj (t1 t2 : Nat) (h1 : t1 < 10 ^ 19) (h2 : t2 < 10 ^ 19)
    (h : Item.txt (ljustTrunc (decDigits 19 t1) 24) 24 =
      Item.txt (ljustTrunc (decDigits 19 t2) 24) 24) : t1 = t2 := by
  have hl : ljustTrunc (decDigits 19 t1) 24 = ljustTrunc (decDigits 19 t2) 24 := by
    injection h
  have hd : decDigits 19 t1 = decDigits 19 t2 :=
    ljustTrunc_inj_19_24 _ _ (decDigits_length 19 t1) (decDigits_length 19 t2) hl
  exact decDigits_inj 19 t1 t2 h1 h2 hd

-- Sequencing of `processRows` over a split row list.

theorem processRows_cons_pos (s e ivl : Nat) (d : DataArray) (row : ConfRow)
    (rest : List ConfRow) (h : (applyRow d row).units = row.units) :
    processRows s e ivl d (row :: rest) =
      (emitRow (applyRow d row) row.wps_name s e ivl ++
          (processRows s e ivl (applyRow d row) rest).1,
        (processRows s e ivl (applyRow d row) rest).2.1,
        (processRows s e ivl (applyRow d row) rest).2.2) := by
  simp only [processRows]
  rw [if_pos h]

theorem processRows_cons_neg (s e ivl : Nat) (d : DataArray) (row : ConfRow)
    (rest : List ConfRow) (h : ¬ (applyRow d row).units = row.units) :
    processRows s e ivl d (row :: rest) =
      ([], applyRow d row, some "Units mismatch") := by
  simp only [processRows]
  rw [if_neg h]

-- ---------------------------------------------------------------------
-- Claim theorems.
-- ---------------------------------------------------------------------

theorem be4_length (n : Nat) : (be4 n).length = 4 := rfl

theorem be4val_be4 (n : Nat) (h : n < 2 ^ 32) : be4val (be4 n) = n := by
  simp only [be4, be4val, List.foldl]
  omega

/-- C2: framing writes length, payload verbatim, length; decoding the
framed record recovers `(|P|, P, |P|)`. -/
theorem framing_roundtrip (P : List Nat) (h : P.length < 2 ^ 31) :
    (be4 P.length).length = 4 ∧
    write_fortran_record P = be4 P.length ++ P ++ be4 P.length ∧
    readFrame (write_fortran_record P) = some (P.length, P, P.length) := by
  refine ⟨rfl, rfl, ?_⟩
  have hlen : P.length < 2 ^ 32 := by omega
  unfold readFrame write_fortran_record
  have htake : ((be4 P.length ++ P ++ be4 P.length).take 4) = be4 P.length := by
    rw [List.append_assoc]
    have h4 : 4 = (be4 P.length).length := rfl
    rw [h4, List.take_left]
  have hdrop : ((be4 P.length ++ P ++ be4 P.length).drop 4) = P ++ be4 P.length := by
    rw [List.append_assoc]
    have h4 : 4 = (be4 P.length).length := rfl
    rw [h4, List.drop_left]
  rw [htake, hdrop, be4val_be4 _ hlen]
  have hcond : 4 ≤ (be4 P.length ++ P ++ be4 P.length).length ∧
      (P ++ be4 P.length).length = P.length + 4 := by
    constructor
    · simp [be4]
    · simp [be4]
  rw [if_pos hcond]
  have htake2 : (P ++ be4 P.length).take P.length = P := List.take_left P _
  have hdrop2 : (P ++ be4 P.length).drop P.length = be4 P.length := List.drop_left P _
  rw [htake2, hdrop2, be4val_be4 _ hlen]

/-- C2 witness at a concrete payload. -/
theorem framing_roundtrip_witness :
    ([7, 0, 255] : List Nat).length < 2 ^ 31 ∧
    ((be4 ([7, 0, 255] : List Nat).length).length = 4 ∧
      write_fortran_record [7, 0, 255] =
        be4 ([7, 0, 255] : List Nat).length ++ [7, 0, 255] ++
          be4 ([7, 0, 255] : List Nat).length ∧
      readFrame (write_fortran_record [7, 0, 255]) = some (3, [7, 0, 255], 3)) :=
  ⟨by decide, framing_roundtrip [7, 0, 255] (by decide)⟩

/-- C8: for ASCII source text, the encoded field is exactly `w` ASCII
bytes: left-justified space padding when the text fits, silent
truncation to the first `w` characters when it does not. -/
theorem pad_spec (s : List Char) (w : Nat) (h : ∀ c ∈ s, c.toNat < 128) :
    ∃ bs, pad s w = some bs ∧ bs.length = w ∧
      (s.length ≤ w → bs = s.map Char.toNat ++ List.replicate (w - s.length) 32) ∧
      (w < s.length → bs = (s.take w).map Char.toNat) := by
  have hall : (ljustTrunc s w).all (fun c => c.toNat < 128) = true := by
    rw [List.all_eq_true]
    intro c hc
    have hc2 : c ∈ s ++ List.replicate (w - s.length) ' ' :=
      List.mem_of_mem_take hc
    rcases List.mem_append.1 hc2 with h1 | h1
    · exact decide_eq_true (h c h1)
    · have : c = ' ' := List.eq_of_mem_replicate h1
      subst this
      decide
  refine ⟨(ljustTrunc s w).map Char.toNat, ?_, ?_, ?_, ?_⟩
  · unfold pad encodeAscii
    rw [if_pos hall]
  · unfold ljustTrunc
    rw [List.length_map, List.length_take, List.length_append,
      List.length_replicate]
    omega
  · intro hle
    unfold ljustTrunc
    have hlen : (s ++ List.replicate (w - s.length) ' ').length = w := by
      rw [List.length_append, List.length_replicate]; omega
    have htk : (s ++ List.replicate (w - s.length) ' ').take w =
        s ++ List.replicate (w - s.length) ' ' :=
      List.take_of_length_le (by rw [hlen])
    rw [htk, List.map_append, List.map_replicate]
    rfl
  · intro hlt
    unfold ljustTrunc
    have : w - s.length = 0 := by omega
    rw [this, List.replicate_zero, List.append_nil, List.map_take]

/-- C8 witness: width 3 with a concrete two-character string. -/
theorem pad_spec_witness :
    (∀ c ∈ ('a' :: ['b']), c.toNat < 128) ∧
    (∃ bs, pad ['a', 'b'] 3 = some bs ∧ bs.length = 3 ∧
      ((['a', 'b'] : List Char).length ≤ 3 →
        bs = (['a', 'b'] : List Char).map Char.toNat ++
          List.replicate (3 - (['a', 'b'] : List Char).length) 32) ∧
      (3 < (['a', 'b'] : List Char).length →
        bs = ((['a', 'b'] : List Char).take 3).map Char.toNat)) :=
  ⟨by decide, pad_spec ['a', 'b'] 3 (by decide)⟩

/-- C1: the encoder emits exactly five records in the fixed order
version-tag, header, geometry, wind-relative-flag, data-slab, with the
fixed constants: version tag 5, forecast lead 0.0, corner label
"SWCORNER", delta-lat = lat[1]-lat[0], delta-lon = lon[1]-lon[0],
Earth radius 6367.470 km, projection code 0, wind flag 0. -/
theorem to_wps_interm_five_records (d : DataSlice) (v : String) (t : Nat)
    (hlat : 2 ≤ d.lat.length) (hlon : 2 ≤ d.lon.length) :
    (to_wps_interm d v t).length = 5 ∧
    (to_wps_interm d v t).getD 0 [] = [Item.i32 5] ∧
    ((to_wps_interm d v t).getD 1 []).length = 10 ∧
    ((to_wps_interm d v t).getD 1 []).getD 1 dfltItem = Item.f32 0 ∧
    ((to_wps_interm d v t).getD 1 []).getD 9 dfltItem = Item.i32 0 ∧
    ((to_wps_interm d v t).getD 2 []).length = 6 ∧
    ((to_wps_interm d v t).getD 2 []).getD 0 dfltItem =
      Item.txt (ljustTrunc "SWCORNER".data 8) 8 ∧
    ((to_wps_interm d v t).getD 2 []).getD 3 dfltItem =
      Item.f32 (d.lat.getD 1 0 - d.lat.getD 0 0) ∧
    ((to_wps_interm d v t).getD 2 []).getD 4 dfltItem =
      Item.f32 (d.lon.getD 1 0 - d.lon.getD 0 0) ∧
    ((to_wps_interm d v t).getD 2 []).getD 5 dfltItem = Item.f32 6367.470 ∧
    (to_wps_interm d v t).getD 3 [] = [Item.i32 0] ∧
    (to_wps_interm d v t).getD 4 [] =
      (slabSeq d.vals d.lon.length d.lat.length).map Item.f32 := by
  refine ⟨rfl, rfl, rfl, rfl, rfl, rfl, rfl, rfl, rfl, ?_, rfl, rfl⟩
  show Item.f32 ((6367470 : ℚ) / 1000) = Item.f32 6367.470
  norm_num

/-- C1 witness at a concrete 2×2 slice. -/
theorem to_wps_interm_five_records_witness :
    2 ≤ slabDemoSlice.lat.length ∧ 2 ≤ slabDemoSlice.lon.length ∧
    ((to_wps_interm slabDemoSlice "TT" 0).length = 5 ∧
     (to_wps_interm slabDemoSlice "TT" 0).getD 0 [] = [Item.i32 5] ∧
     ((to_wps_interm slabDemoSlice "TT" 0).getD 1 []).length = 10 ∧
     ((to_wps_interm slabDemoSlice "TT" 0).getD 1 []).getD 1 dfltItem = Item.f32 0 ∧
     ((to_wps_interm slabDemoSlice "TT" 0).getD 1 []).getD 9 dfltItem = Item.i32 0 ∧
     ((to_wps_interm slabDemoSlice "TT" 0).getD 2 []).length = 6 ∧
     ((to_wps_interm slabDemoSlice "TT" 0).getD 2 []).getD 0 dfltItem =
       Item.txt (ljustTrunc "SWCORNER".data 8) 8 ∧
     ((to_wps_interm slabDemoSlice "TT" 0).getD 2 []).getD 3 dfltItem =
       Item.f32 (slabDemoSlice.lat.getD 1 0 - slabDemoSlice.lat.getD 0 0) ∧
     ((to_wps_interm slabDemoSlice "TT" 0).getD 2 []).getD 4 dfltItem =
       Item.f32 (slabDemoSlice.lon.getD 1 0 - slabDemoSlice.lon.getD 0 0) ∧
     ((to_wps_interm slabDemoSlice "TT" 0).getD 2 []).getD 5 dfltItem =
       Item.f32 6367.470 ∧
     (to_wps_interm slabDemoSlice "TT" 0).getD 3 [] = [Item.i32 0] ∧
     (to_wps_interm slabDemoSlice "TT" 0).getD 4 [] =
       (slabSeq slabDemoSlice.vals slabDemoSlice.lon.length
         slabDemoSlice.lat.length).map Item.f32) :=
  ⟨by decide, by decide,
    to_wps_interm_five_records slabDemoSlice "TT" 0 (by decide) (by decide)⟩

/-- C10: a slice with no pressure-level coordinate gets the surface
sentinel 200100 as its XLVL header field. -/
theorem surface_xlvl (d : DataSlice) (v : String) (t : Nat) (h : d.plev = none) :
    ((to_wps_interm d v t).getD 1 []).length = 10 ∧
    ((to_wps_interm d v t).getD 1 []).getD 6 dfltItem = Item.f32 200100 := by
  unfold to_wps_interm
  rw [h]
  exact ⟨rfl, rfl⟩

/-- C10 witness at a concrete surface slice. -/
theorem surface_xlvl_witness :
    surfSlice.plev = none ∧
    (((to_wps_interm surfSlice "PSFC" 3).getD 1 []).length = 10 ∧
     ((to_wps_interm surfSlice "PSFC" 3).getD 1 []).getD 6 dfltItem =
       Item.f32 200100) :=
  ⟨rfl, surface_xlvl surfSlice "PSFC" 3 rfl⟩

/-- C3 counterexample: on a 2×2 grid with distinct values the emitted
slab record is NOT in the order the claim's gloss demands (values for a
fixed longitude across all latitudes contiguous); the code emits the
grid with longitude varying fastest instead. -/
theorem slab_order_counterexample :
    (to_wps_interm slabDemoSlice "TT" 0).getD 4 [] ≠
      (slabSeqClaimed slabDemoSlice.vals 2 2).map Item.f32 ∧
    (to_wps_interm slabDemoSlice "TT" 0).getD 4 [] =
      (slabSeq slabDemoSlice.vals 2 2).map Item.f32 ∧
    slabSeq slabDemoSlice.vals 2 2 = [1, 3, 2, 4] ∧
    slabSeqClaimed slabDemoSlice.vals 2 2 = [1, 2, 3, 4] := by
  decide

/-- C3 amended: the slab record holds all NX×NY values with longitude
as the fastest-varying index: the value for longitude `i`, latitude `j`
sits at flat position `j * NX + i`, so values for a fixed latitude
across all longitudes are contiguous before the next latitude. -/
theorem slab_order_amended (d : DataSlice) (v : String) (t : Nat) (i j : Nat)
    (hi : i < d.lon.length) (hj : j < d.lat.length) :
    ((to_wps_interm d v t).getD 4 []).length = d.lon.length * d.lat.length ∧
    ((to_wps_interm d v t).getD 4 []).getD (j * d.lon.length + i) dfltItem =
      Item.f32 ((d.vals.getD i []).getD j 0) := by
  have hrec : (to_wps_interm d v t).getD 4 [] =
      (slabSeq d.vals d.lon.length d.lat.length).map Item.f32 := rfl
  have hlen : (slabSeq d.vals d.lon.length d.lat.length).length =
      d.lat.length * d.lon.length := length_bind_range_map _ _ _
  have hidx : j * d.lon.length + i <
      (slabSeq d.vals d.lon.length d.lat.length).length := by
    rw [hlen]
    have h1 : j * d.lon.length + i < (j + 1) * d.lon.length := by nlinarith
    have h2 : (j + 1) * d.lon.length ≤ d.lat.length * d.lon.length :=
      Nat.mul_le_mul_right _ hj
    omega
  constructor
  · rw [hrec, List.length_map, hlen]; ring
  · rw [hrec, getD_map_of_lt Item.f32 _ _ hidx dfltItem 0]
    have := getD_bind_range_map d.lat.length d.lon.length
      (fun j i => (d.vals.getD i []).getD j 0) 0 j i hj hi
    rw [slabSeq, this]

/-- C3 amended witness at a concrete 2×2 slice and position (i=1,j=0). -/
theorem slab_order_amended_witness :
    1 < slabDemoSlice.lon.length ∧ 0 < slabDemoSlice.lat.length ∧
    (((to_wps_interm slabDemoSlice "TT" 0).getD 4 []).length =
      slabDemoSlice.lon.length * slabDemoSlice.lat.length ∧
     ((to_wps_interm slabDemoSlice "TT" 0).getD 4 []).getD
        (0 * slabDemoSlice.lon.length + 1) dfltItem =
      Item.f32 ((slabDemoSlice.vals.getD 1 []).getD 0 0)) :=
  ⟨by decide, by decide,
    slab_order_amended slabDemoSlice "TT" 0 1 0 (by decide) (by decide)⟩

/-- C9 counterexample: a grid whose latitude spacing is non-uniform is
still encoded — five records, with the single delta taken from the
first two coordinate values — rather than any failure being raised. -/
theorem irregular_grid_counterexample :
    uniformSpacing irrSlice.lat = false ∧
    (to_wps_interm irrSlice "TT" 0).length = 5 ∧
    ((to_wps_interm irrSlice "TT" 0).getD 2 []).getD 3 dfltItem =
      Item.f32 (irrSlice.lat.getD 1 0 - irrSlice.lat.getD 0 0) := by
  refine ⟨irrSlice_lat_not_uniform, rfl, rfl⟩

/-- C9 amended: the pipeline performs no uniformity validation: even
when an axis's spacing is non-uniform, it encodes the five records with
the single-delta geometry derived from only the first two coordinate
values of each axis. -/
theorem irregular_grid_amended (d : DataSlice) (v : String) (t : Nat)
    (h : uniformSpacing d.lat = false ∨ uniformSpacing d.lon = false) :
    (to_wps_interm d v t).length = 5 ∧
    ((to_wps_interm d v t).getD 2 []).getD 3 dfltItem =
      Item.f32 (d.lat.getD 1 0 - d.lat.getD 0 0) ∧
    ((to_wps_interm d v t).getD 2 []).getD 4 dfltItem =
      Item.f32 (d.lon.getD 1 0 - d.lon.getD 0 0) :=
  ⟨rfl, rfl, rfl⟩

/-- C9 amended witness at the concrete non-uniform slice. -/
theorem irregular_grid_amended_witness :
    (uniformSpacing irrSlice.lat = false ∨ uniformSpacing irrSlice.lon = false) ∧
    ((to_wps_interm irrSlice "UU" 1).length = 5 ∧
     ((to_wps_interm irrSlice "UU" 1).getD 2 []).getD 3 dfltItem =
       Item.f32 (irrSlice.lat.getD 1 0 - irrSlice.lat.getD 0 0) ∧
     ((to_wps_interm irrSlice "UU" 1).getD 2 []).getD 4 dfltItem =
       Item.f32 (irrSlice.lon.getD 1 0 - irrSlice.lon.getD 0 0)) :=
  ⟨Or.inl irrSlice_lat_not_uniform,
    irregular_grid_amended irrSlice "UU" 1 (Or.inl irrSlice_lat_not_uniform)⟩

/-- C6: a variable with a time axis of size T and a pressure-level axis
of size M fans out to exactly T·M field-slabs, time outermost and level
innermost: the slab for (time `it`, level `ip`) sits at position
`it · M + ip` of the emitted stream. -/
theorem tp_fanout (d : DataArray) (cube : List (List Grid2)) (wps : String)
    (s e ivl : Nat) (hd : d.data = VarData.tp cube) :
    (emitRow d wps s e ivl).length = d.times.length * d.plevs.length ∧
    ∀ it ip, it < d.times.length → ip < d.plevs.length →
      (emitRow d wps s e ivl).getD (it * d.plevs.length + ip) [] =
        to_wps_interm
          (sliceAt d ((cube.getD it []).getD ip []) (some (d.plevs.getD ip 0)))
          wps (d.times.getD it 0) := by
  have he : emitRow d wps s e ivl =
      (List.range d.times.length).flatMap (fun it =>
        (List.range d.plevs.length).map (fun ip =>
          to_wps_interm
            (sliceAt d ((cube.getD it []).getD ip []) (some (d.plevs.getD ip 0)))
            wps (d.times.getD it 0))) := by
    simp only [emitRow, hd]
  constructor
  · rw [he]
    exact length_bind_range_map _ _ _
  · intro it ip h1 h2
    rw [he]
    exact getD_bind_range_map d.times.length d.plevs.length _ [] it ip h1 h2

/-- C6 witness: two stamps, two levels; the slab at position
`1 * 2 + 0` is the (time 1, level 0) slice. -/
theorem tp_fanout_witness :
    tpVar.data = VarData.tp tpCube ∧
    ((emitRow tpVar "TT" 0 0 1).length = tpVar.times.length * tpVar.plevs.length ∧
     ∀ it ip, it < tpVar.times.length → ip < tpVar.plevs.length →
       (emitRow tpVar "TT" 0 0 1).getD (it * tpVar.plevs.length + ip) [] =
         to_wps_interm
           (sliceAt tpVar ((tpCube.getD it []).getD ip [])
             (some (tpVar.plevs.getD ip 0)))
           "TT" (tpVar.times.getD it 0)) :=
  ⟨rfl, tp_fanout tpVar tpCube "TT" 0 0 1 rfl⟩

/-- C7: a static variable requested over `[s, e]` at interval `ivl`
yields exactly `(e-s)/ivl + 1` slabs, one per implied stamp, all with
identical slab values, each stamped with that stamp's valid time, and
with pairwise distinct valid-time header records. -/
theorem static_fanout (d : DataArray) (g : Grid2) (wps : String) (s e ivl : Nat)
    (hd : d.data = VarData.static g) (hivl : 0 < ivl) (hse : s ≤ e)
    (hbound : e < 10 ^ 19) :
    (emitRow d wps s e ivl).length = (e - s) / ivl + 1 ∧
    (∀ k, k < (e - s) / ivl + 1 →
      (emitRow d wps s e ivl).getD k [] =
        to_wps_interm (sliceAt d g none) wps (s + k * ivl)) ∧
    (∀ k, k < (e - s) / ivl + 1 →
      ((emitRow d wps s e ivl).getD k []).getD 4 ([] : Record) =
        (slabSeq g d.lon.length d.lat.length).map Item.f32) ∧
    (∀ k1 k2, k1 < (e - s) / ivl + 1 → k2 < (e - s) / ivl + 1 → k1 ≠ k2 →
      ((emitRow d wps s e ivl).getD k1 []).getD 1 ([] : Record) ≠
        ((emitRow d wps s e ivl).getD k2 []).getD 1 ([] : Record)) := by
  have he : emitRow d wps s e ivl =
      (List.range ((e - s) / ivl + 1)).map
        (fun k => to_wps_interm (sliceAt d g none) wps (s + k * ivl)) := by
    simp only [emitRow, hd, dateRange, if_pos hse, List.map_map]
    rfl
  have hstamp : ∀ k, k < (e - s) / ivl + 1 → s + k * ivl < 10 ^ 19 := by
    intro k hk
    have hk2 : k ≤ (e - s) / ivl := by omega
    have : k * ivl ≤ e - s := (Nat.le_div_iff_mul_le hivl).1 hk2
    omega
  refine ⟨?_, ?_, ?_, ?_⟩
  · rw [he]
    simp
  · intro k hk
    rw [he]
    exact getD_range_map _ _ _ hk _
  · intro k hk
    rw [he, getD_range_map _ _ _ hk _]
    rfl
  · intro k1 k2 hk1 hk2 hne contra
    rw [he, getD_range_map _ _ _ hk1 _, getD_range_map _ _ _ hk2 _] at contra
    have hitem := congrArg (fun r => r.getD 0 dfltItem) contra
    simp only at hitem
    have ht : s + k1 * ivl = s + k2 * ivl :=
      hdate_item_inj _ _ (hstamp k1 hk1) (hstamp k2 hk2) hitem
    have : k1 * ivl = k2 * ivl := by omega
    exact hne (Nat.eq_of_mul_eq_mul_right hivl this)

/-- C7 witness: a static field over stamps 0,1,2. -/
theorem static_fanout_witness :
    staticVar.data = VarData.static staticGrid ∧ 0 < 1 ∧ 0 ≤ 2 ∧ 2 < 10 ^ 19 ∧
    ((emitRow staticVar "HGT" 0 2 1).length = (2 - 0) / 1 + 1 ∧
     (∀ k, k < (2 - 0) / 1 + 1 →
       (emitRow staticVar "HGT" 0 2 1).getD k [] =
         to_wps_interm (sliceAt staticVar staticGrid none) "HGT" (0 + k * 1)) ∧
     (∀ k, k < (2 - 0) / 1 + 1 →
       ((emitRow staticVar "HGT" 0 2 1).getD k []).getD 4 ([] : Record) =
         (slabSeq staticGrid staticVar.lon.length staticVar.lat.length).map Item.f32) ∧
     (∀ k1 k2, k1 < (2 - 0) / 1 + 1 → k2 < (2 - 0) / 1 + 1 → k1 ≠ k2 →
       ((emitRow staticVar "HGT" 0 2 1).getD k1 []).getD 1 ([] : Record) ≠
         ((emitRow staticVar "HGT" 0 2 1).getD k2 []).getD 1 ([] : Record))) :=
  ⟨rfl, by decide, by decide, by decide,
    static_fanout staticVar staticGrid "HGT" 0 2 1 rfl (by decide) (by decide)
      (by decide)⟩

/-- Helper: a post-scale unit mismatch at `row` (all earlier rows of
the variable succeeding) stops `processRows` with the mismatch error
and exactly the earlier rows' output. -/
theorem processRows_mismatch (s e ivl : Nat) (d : DataArray)
    (pre : List ConfRow) (row : ConfRow) (post : List ConfRow)
    (hok : (processRows s e ivl d pre).2.2 = none)
    (hmm : (applyRow (processRows s e ivl d pre).2.1 row).units ≠ row.units) :
    processRows s e ivl d (pre ++ row :: post) =
      ((processRows s e ivl d pre).1,
        applyRow (processRows s e ivl d pre).2.1 row, some "Units mismatch") := by
  induction pre generalizing d with
  | nil =>
      simp only [processRows, List.nil_append] at *
      exact processRows_cons_neg s e ivl d row post hmm
  | cons r0 rest ih =>
      by_cases h0 : (applyRow d r0).units = r0.units
      · have hx := processRows_cons_pos s e ivl d r0 rest h0
        have hy := processRows_cons_pos s e ivl d r0 (rest ++ row :: post) h0
        rw [hx] at hok hmm
        rw [List.cons_append, hy, ih (applyRow d r0) hok hmm, hx]
      · have hx := processRows_cons_neg s e ivl d r0 rest h0
        rw [hx] at hok
        simp at hok

/-- C5: when a (variable, mapping-row) pair's post-scale unit differs
from the row's declared target unit (every earlier row of that variable
having succeeded), the whole-dataset conversion returns the units
mismatch error with exactly the earlier rows' slabs as output: no
record of the failing pair is emitted, and the remaining rows and
remaining variables of the run are aborted. -/
theorem units_mismatch_aborts (s e ivl : Nat) (name : String) (d : DataArray)
    (rest : List (String × DataArray)) (conf : List ConfRow)
    (pre : List ConfRow) (row : ConfRow) (post : List ConfRow)
    (hfilter : conf.filter (fun r => r.var_id = name) = pre ++ row :: post)
    (hok : (processRows s e ivl d pre).2.2 = none)
    (hmm : (applyRow (processRows s e ivl d pre).2.1 row).units ≠ row.units) :
    convert_single_file s e ivl ((name, d) :: rest) conf =
      ((processRows s e ivl d pre).1, some "Units mismatch") := by
  have h1 := processRows_mismatch s e ivl d pre row post hok hmm
  simp only [convert_single_file]
  rw [hfilter, h1]

/-- C5 witness: a no-scale row whose target unit `hPa` differs from the
variable's unit `K`; the dataset conversion output is empty and errors,
with the trailing row and a second variable left unprocessed. -/
theorem units_mismatch_aborts_witness :
    ([c5BadRow, c4Row1].filter (fun r => r.var_id = "ta") =
      [] ++ c5BadRow :: [c4Row1]) ∧
    (processRows 0 0 1 c4Var []).2.2 = none ∧
    (applyRow (processRows 0 0 1 c4Var []).2.1 c5BadRow).units ≠ c5BadRow.units ∧
    convert_single_file 0 0 1 [("ta", c4Var), ("orog", staticVar)]
        [c5BadRow, c4Row1] =
      ((processRows 0 0 1 c4Var []).1, some "Units mismatch") :=
  ⟨by decide, rfl, by decide,
    units_mismatch_aborts 0 0 1 "ta" c4Var [("orog", staticVar)]
      [c5BadRow, c4Row1] [] c5BadRow [c4Row1] (by decide) rfl (by decide)⟩

/-- C4 (divergence witness): for a variable with two matching mapping
rows of finite scales 2 then 3, the slab emitted for the second row
holds the values scaled by 2·3 — the scaled array is carried across
rows — not the source values scaled by 3 alone as the claim states. -/
theorem scale_accumulates_across_rows :
    ((processRows 0 0 1 c4Var [c4Row1, c4Row2]).1.getD 1 []).getD 4 ([] : Record) =
      (slabSeq (scaleGrid (scaleGrid [[1, 1], [1, 1]] 2) 3) 2 2).map Item.f32 ∧
    ((processRows 0 0 1 c4Var [c4Row1, c4Row2]).1.getD 1 []).getD 4 ([] : Record) ≠
      (slabSeq (scaleGrid [[1, 1], [1, 1]] 3) 2 2).map Item.f32 := by
  constructor
  · rfl
  · intro hcontra
    have h0 := congrArg (fun l => l.getD 0 dfltItem) hcontra
    have h1 : ((1 : ℚ) * 2) * 3 = (1 : ℚ) * 3 := Item.f32.inj h0
    norm_num at h1
